import Mathlib

/-!
# Verification of the Wound-Analysis analysis pipeline and output-parsing contract

Shallow embedding of the analysis and parsing functions of the repository:

* `analyze_trends`, `summarize_analysis` (src/modules/analysis.py)
* `parse_hypothesis_output`, `parse_validation_output` (src/app.py)
* the summary truncation in `create_hypothesis_task` (src/modules/tasks.py)

Python floats are idealised as exact rationals (`ℚ`); values that the code
obtains from external statistics libraries (scipy's `ttest_ind`, statsmodels'
`seasonal_decompose`) are abstracted as function parameters, since those
libraries are outside the repository; quantities that mathematically involve
square roots (standard deviations, Pearson coefficients) live in `ℝ`.
Python strings are modelled as `String` (sequences of code points), matching
Python's character-based indexing and slicing.
-/

set_option maxRecDepth 8000

/-! ## Python string primitives -/

/-- Python's whitespace class for `str.strip`/`str.split()`/regex `\s`
(ASCII part: space, tab, newline, carriage return, vertical tab, form feed). -/
def isPySpace (c : Char) : Bool :=
  c = ' ' || c = '\t' || c = '\n' || c = '\r' || c = '\x0b' || c = '\x0c'

/-- Python's `str.strip()`: remove leading and trailing whitespace. -/
def pyStrip (s : String) : String :=
  ⟨((s.data.dropWhile isPySpace).reverse.dropWhile isPySpace).reverse⟩

/-- Python's `str.split(c)` for a single-character separator:
split at every occurrence, keeping empty pieces (`"".split(c) = [""]`). -/
def pySplitChar (c : Char) (s : String) : List String :=
  (s.data.splitOn c).map (⟨·⟩)

/-- Python's `str.split()` with no argument: split on whitespace runs,
dropping empty pieces. -/
def pySplitWs (s : String) : List String :=
  ((s.data.splitOnP isPySpace).filter (· ≠ [])).map (⟨·⟩)

/-- Python's `str.startswith(p)`. -/
def pyStartsWith (s p : String) : Bool :=
  p.data.isPrefixOf s.data

/-- Python's `'\n'.join(blocks)` restricted to what the model needs. -/
def pyJoinNl (ls : List String) : String :=
  ⟨List.intercalate ['\n'] (ls.map String.data)⟩

/-- Python's `s[:n]` slice (by characters). -/
def pySlice (s : String) (n : ℕ) : String :=
  ⟨s.data.take n⟩

/-- Character count of a Python string (`len(s)`). -/
def pyLen (s : String) : ℕ := s.data.length

/-- A line consisting purely of whitespace (matched by the `\s*` between two
newlines in the regex `\n\s*\n`). -/
def isBlankStr (s : String) : Bool := s.data.all isPySpace

/-! ## The input table (`pd.DataFrame` of validated wound records) -/

/-- One row of the input table, with the columns `analyze_trends` reads.
The input contract (`WoundDataSchema` in src/modules/data_loader.py) validates
the numeric columns as non-negative numbers, so cells are modelled directly as
rationals; the code's defensive `pd.to_numeric(..., errors='coerce').fillna(0)`
re-coercions are identities on such data. -/
structure Row where
  WEEK : String
  NAME : String
  TOTAL_WOUND_AREA : ℚ
  WOUND_COUNT : ℚ
  AVG_WOUND_AREA : ℚ
deriving DecidableEq

/-- The DataFrame handed to `analyze_trends`: a header (which may be missing
required columns) plus the rows. -/
structure Frame where
  cols : List String
  rows : List Row
deriving DecidableEq

def requiredCols : List String :=
  ["WEEK", "TOTAL_WOUND_AREA", "NAME", "WOUND_COUNT", "AVG_WOUND_AREA"]

/-- The header that the standard input contract provides. -/
def stdCols : List String := requiredCols

/-! ## Week labels and ordering -/

/-- Python's `x.split()[-1]` (`none` when the split is empty, in which case
the source raises an uncaught `IndexError`). -/
def lastToken? (s : String) : Option String :=
  (pySplitWs s).getLast?

def charDigit? (c : Char) : Option ℕ :=
  if '0' ≤ c ∧ c ≤ '9' then some (c.toNat - '0'.toNat) else none

def digitsVal? : List Char → Option ℕ
  | [] => none
  | cs => cs.foldl (fun acc c => acc.bind fun n => (charDigit? c).map (10 * n + ·)) (some 0)

/-- Python's `int(s)` on a whitespace-free token: an optional sign followed by
at least one decimal digit (`none` models the raised `ValueError`). -/
def pyInt? (s : String) : Option Int :=
  match s.data with
  | '-' :: cs => (digitsVal? cs).map fun n => -(n : Int)
  | '+' :: cs => (digitsVal? cs).map fun n => (n : Int)
  | cs => (digitsVal? cs).map fun n => (n : Int)

/-- `int(x.split()[-1])`: the integer key used to order week labels
(src/modules/analysis.py line 23). `none` models the raised exception
(`IndexError` from `[-1]` on an empty split, or `ValueError` from `int`). -/
def weekKey? (s : String) : Option Int :=
  (lastToken? s).bind pyInt?

/-- Total version of the week key for stating order facts; coincides with
`weekKey?` on labels of the form `"Week <n>"`. -/
def weekKeyD (s : String) : Int :=
  (weekKey? s).getD 0

/-- A label the source can order numerically without raising. -/
def wellFormedWeek (s : String) : Bool :=
  (weekKey? s).isSome

/-- `pandas`' first-occurrence deduplication (`Series.unique`). -/
def uniqueFirstAux : List String → List String → List String
  | [], _ => []
  | x :: xs, seen =>
    if x ∈ seen then uniqueFirstAux xs seen
    else x :: uniqueFirstAux xs (x :: seen)

def uniqueFirst (l : List String) : List String := uniqueFirstAux l []

/-- Ordering of week labels by integer suffix. -/
def weekNumLe (a b : String) : Prop := weekKeyD a ≤ weekKeyD b

instance : DecidableRel weekNumLe := fun a b => by
  unfold weekNumLe; infer_instance

instance : IsTotal String weekNumLe := ⟨fun _ _ => le_total _ _⟩

instance : IsTrans String weekNumLe := ⟨fun _ _ _ h h' => le_trans h h'⟩

/-- Python's `sorted(ws, key=lambda x: int(x.split()[-1]))`: a stable sort by
the numeric key. Python's `sorted` is stable, and a stable comparison sort is
extensionally insertion sort. -/
def sortWeeksNum (ws : List String) : List String :=
  List.insertionSort weekNumLe ws

/-- Lexicographic comparison of character sequences by code point:
Python's `<` on `str`. -/
def lexLt : List Char → List Char → Bool
  | [], [] => false
  | [], _ :: _ => true
  | _ :: _, [] => false
  | a :: as, b :: bs => if a = b then lexLt as bs else decide (a < b)

def pyStrLt (a b : String) : Bool := lexLt a.data b.data

/-- The non-strict order Python's stable `sorted` effectively sorts by
(`a ≤ b` iff not `b < a`). -/
def strLe (a b : String) : Prop := pyStrLt b a = false

instance : DecidableRel strLe := fun a b => by
  unfold strLe; infer_instance

theorem lexLt_asymm : ∀ as bs, lexLt as bs = true → lexLt bs as = false
  | [], [], h => by simp [lexLt] at h
  | [], _ :: _, _ => by simp [lexLt]
  | _ :: _, [], h => by simp [lexLt] at h
  | a :: as, b :: bs, h => by
    by_cases hab : a = b
    · subst hab
      simpa [lexLt] using lexLt_asymm as bs (by simpa [lexLt] using h)
    · have hba : ¬ b = a := fun e => hab e.symm
      simp only [lexLt, if_neg hab, decide_eq_true_eq] at h
      simp only [lexLt, if_neg hba, decide_eq_false_iff_not]
      exact lt_asymm h

theorem lexLt_trans : ∀ as bs cs, lexLt as bs = true → lexLt bs cs = true →
    lexLt as cs = true
  | [], bs, [], _, h₂ => by cases bs <;> simp [lexLt] at h₂
  | [], _, _ :: _, _, _ => by simp [lexLt]
  | _ :: _, [], _, h₁, _ => by simp [lexLt] at h₁
  | _ :: _, _ :: _, [], _, h₂ => by simp [lexLt] at h₂
  | a :: as, b :: bs, c :: cs, h₁, h₂ => by
    by_cases hab : a = b <;> by_cases hbc : b = c
    · subst hab; subst hbc
      simp only [lexLt, if_pos rfl] at h₁ h₂ ⊢
      exact lexLt_trans as bs cs h₁ h₂
    · subst hab
      simp only [lexLt, if_neg hbc] at h₂ ⊢
      exact h₂
    · subst hbc
      simp only [lexLt, if_neg hab] at h₁ ⊢
      exact h₁
    · simp only [lexLt, if_neg hab, decide_eq_true_eq] at h₁
      simp only [lexLt, if_neg hbc, decide_eq_true_eq] at h₂
      have hac : a < c := lt_trans h₁ h₂
      simp [lexLt, if_neg (ne_of_lt hac), hac]

theorem lexLt_connex : ∀ as bs, lexLt as bs = false → lexLt bs as = false → as = bs
  | [], [], _, _ => rfl
  | [], _ :: _, h, _ => by simp [lexLt] at h
  | _ :: _, [], _, h => by simp [lexLt] at h
  | a :: as, b :: bs, h₁, h₂ => by
    by_cases hab : a = b
    · subst hab
      simp only [lexLt, if_pos rfl] at h₁ h₂
      rw [lexLt_connex as bs h₁ h₂]
    · have hba : ¬ b = a := fun e => hab e.symm
      simp only [lexLt, if_neg hab, decide_eq_false_iff_not] at h₁
      simp only [lexLt, if_neg hba, decide_eq_false_iff_not] at h₂
      exact absurd (le_antisymm (not_lt.mp h₂) (not_lt.mp h₁)) hab

instance : IsTotal String strLe :=
  ⟨fun a b => by
    unfold strLe pyStrLt
    rcases h : lexLt b.data a.data with _ | _
    · exact Or.inl rfl
    · exact Or.inr (lexLt_asymm _ _ h)⟩

instance : IsTrans String strLe :=
  ⟨fun a b c h₁ h₂ => by
    unfold strLe pyStrLt at h₁ h₂ ⊢
    rcases h : lexLt c.data a.data with _ | _
    · rfl
    · exfalso
      rcases hbc : lexLt b.data c.data with _ | _
      · have heq := lexLt_connex _ _ hbc h₂
        rw [heq, h] at h₁
        simp at h₁
      · have := lexLt_trans _ _ _ hbc h
        rw [this] at h₁
        simp at h₁⟩

/-- Python's `sorted(xs)` on strings: stable sort in lexicographic order.
`sorted(df['WEEK'].unique())` on line 110 of src/modules/analysis.py iterates
the raw label strings, so it compares them lexicographically (the categorical
order set on line 22 is not consulted by builtin `sorted`). -/
def sortStrsLex (ws : List String) : List String :=
  List.insertionSort strLe ws

/-- The ordered category sequence built on lines 22-24: unique week labels in
first-occurrence order, stably sorted by integer suffix. Weekly-trend groups
follow this order. -/
def weeksNumOf (t : Frame) : List String :=
  sortWeeksNum (uniqueFirst (t.rows.map Row.WEEK))

/-- The week sequence used by the t-test loop (line 110): unique labels in
lexicographic order. -/
def weeksLexOf (t : Frame) : List String :=
  sortStrsLex (uniqueFirst (t.rows.map Row.WEEK))

/-- Number of distinct week labels. -/
def distinctWeekCount (t : Frame) : ℕ :=
  (uniqueFirst (t.rows.map Row.WEEK)).length

/-! ## Statistics (exact rational idealisation of pandas reductions) -/

def qsum (l : List ℚ) : ℚ := l.sum

def qmean (l : List ℚ) : ℚ := l.sum / l.length

/-- pandas' sample variance (`Series.var`, `ddof=1`). For lists of length ≤ 1
pandas yields `NaN`; this model yields `0`, and the two agree on every use in
the source: the variance only feeds `var > 1e-10` comparisons, which are false
for `NaN` and for `0` alike, and the standard deviation only feeds a
`fillna(0)`. -/
def sampleVar (l : List ℚ) : ℚ :=
  (l.map (fun x => (x - qmean l) ^ 2)).sum / ((l.length : ℚ) - 1)

/-- The rows of `t` belonging to week `w`. -/
def weekRows (t : Frame) (w : String) : List Row :=
  t.rows.filter (fun r => r.WEEK = w)

/-- `df[df['WEEK'] == w]['TOTAL_WOUND_AREA'].dropna()` (no NaN cells in the
rational model). -/
def weekAreas (t : Frame) (w : String) : List ℚ :=
  (weekRows t w).map Row.TOTAL_WOUND_AREA

def nameRows (t : Frame) (n : String) : List Row :=
  t.rows.filter (fun r => r.NAME = n)

/-! ## External statistics routines

`scipy.stats.ttest_ind` and `statsmodels`' `seasonal_decompose` are external
libraries, not code of this repository; only the shape of their invocation is
part of the analyzer's contract. They are therefore taken as parameters of the
analyzer: `ttest_ind samples1 samples2 equalVar` abstracts
`stats.ttest_ind(week1, week2, equal_var=...)` returning a
`(t_statistic, p_value)` pair, and `seasonal_decompose model period series`
abstracts `seasonal_decompose(series, model=..., period=...)`. -/

/-- The three decomposition components, as `(week, value)` records
(the dict built on lines 83-87 of src/modules/analysis.py). -/
structure SeasonalityData where
  trend : List (String × ℚ)
  seasonal : List (String × ℚ)
  resid : List (String × ℚ)
deriving DecidableEq

structure ExternalStats where
  ttest_ind : List ℚ → List ℚ → Bool → ℚ × ℚ
  seasonal_decompose : String → ℕ → List (String × ℚ) → SeasonalityData

/-- A trivial instantiation of the external routines, for concrete runs. -/
def extDefault : ExternalStats :=
  { ttest_ind := fun _ _ _ => (0, 0)
    seasonal_decompose := fun _ _ _ => ⟨[], [], []⟩ }

/-! ## Stage 1: weekly trends -/

/-- One record of `analysis['weekly_trends_data']` (lines 31-38). The standard
deviation is `sqrt` of the sample variance with `NaN → 0` (`fillna(0)`), which
for a single-row group equals `sqrt 0 = 0` in this model. -/
structure WeeklyRow where
  WEEK : String
  Mean_Wound_Area : ℚ
  Std_Wound_Area : ℝ
  Total_Wounds : ℚ

/-- `df.groupby('WEEK', observed=True)` aggregation: groups follow the ordered
categorical's category order (the numerically sorted week sequence). -/
noncomputable def weeklyTrends (t : Frame) : List WeeklyRow :=
  (weeksNumOf t).map fun w =>
    { WEEK := w
      Mean_Wound_Area := qmean (weekAreas t w)
      Std_Wound_Area := Real.sqrt (sampleVar (weekAreas t w))
      Total_Wounds := ((weekRows t w).map Row.WOUND_COUNT).sum }

/-- The week labels of the weekly-trend sequence. -/
noncomputable def weeklyTrendWeeks (t : Frame) : List String :=
  (weeklyTrends t).map WeeklyRow.WEEK

/-! ## Stage 2: product performance -/

/-- One row of `product_stats` (lines 48-53). -/
structure ProductRow where
  NAME : String
  Mean_Wound_Area : ℚ
  Usage_Count : ℕ
deriving DecidableEq

/-- `df.groupby('NAME', observed=True).agg(...)`: one aggregate row per
product, group keys in lexicographically sorted order (pandas `sort=True`). -/
def productStats (t : Frame) : List ProductRow :=
  (sortStrsLex (uniqueFirst (t.rows.map Row.NAME))).map fun n =>
    { NAME := n
      Mean_Wound_Area := qmean ((nameRows t n).map Row.TOTAL_WOUND_AREA)
      Usage_Count := (nameRows t n).length }

/-- Descending-by-mean ordering on product rows. -/
def meanGe (a b : ProductRow) : Prop := b.Mean_Wound_Area ≤ a.Mean_Wound_Area

instance : DecidableRel meanGe := fun a b => by
  unfold meanGe; infer_instance

/-- Ascending companion order used by the model of `sort_values`. -/
def meanLe (a b : ProductRow) : Prop := a.Mean_Wound_Area ≤ b.Mean_Wound_Area

instance : DecidableRel meanLe := fun a b => by
  unfold meanLe; infer_instance

instance : IsTotal ProductRow meanLe := ⟨fun _ _ => le_total _ _⟩

instance : IsTrans ProductRow meanLe := ⟨fun _ _ _ h h' => le_trans h h'⟩

/-- `product_stats[product_stats['Mean_Wound_Area'] > 0]
.sort_values('Mean_Wound_Area', ascending=False).head(10)` (lines 54-55).
pandas' descending `sort_values` computes an ascending argsort of the values
and reverses it (`nargsort`: `indexer = indexer[::-1]`); the ascending argsort
is modelled as a stable sort, which is exact for the small inputs exhibited
here (numpy's introsort runs pure insertion sort below 16 elements). -/
def productRanking (t : Frame) : List ProductRow :=
  (((productStats t).filter fun r => 0 < r.Mean_Wound_Area).insertionSort meanLe).reverse.take 10

/-- The `(x, y)` payload of the product-performance bar chart (lines 57-66):
the ranking itself, or a placeholder when no product survives the filter. -/
def productChart (t : Frame) : List (String × ℚ) :=
  if productRanking t = [] then [("No Valid Data", 0)]
  else (productRanking t).map fun r => (r.NAME, r.Mean_Wound_Area)

/-! ## Stage 3: correlation matrix -/

/-- The three numeric columns, in the order of `numeric_cols` (line 72). -/
def corrColNames : Fin 3 → String :=
  !["TOTAL_WOUND_AREA", "WOUND_COUNT", "AVG_WOUND_AREA"]

def corrCol (t : Frame) : Fin 3 → List ℚ := fun i =>
  match i with
  | 0 => t.rows.map Row.TOTAL_WOUND_AREA
  | 1 => t.rows.map Row.WOUND_COUNT
  | 2 => t.rows.map Row.AVG_WOUND_AREA

/-- Centred cross-moment `Σ (x - x̄)(y - ȳ)` over two equally long columns. -/
def crossMoment (xs ys : List ℚ) : ℚ :=
  ((xs.zip ys).map fun p => (p.1 - qmean xs) * (p.2 - qmean ys)).sum

/-- Pearson product-moment correlation (`DataFrame.corr`, method `'pearson'`). -/
noncomputable def pearson (xs ys : List ℚ) : ℝ :=
  (crossMoment xs ys : ℝ) /
    (Real.sqrt (crossMoment xs xs) * Real.sqrt (crossMoment ys ys))

/-- `round(x, 2)` idealised over `ℝ`: round `100·x` to an integer and divide
back. (numpy rounds halves to even, Mathlib's `round` rounds halves up; the
two agree away from exact halves, and no claim depends on the half case.) -/
noncomputable def round2 (x : ℝ) : ℝ := (round (x * 100) : ℤ) / 100

/-- `numeric_df.corr().round(2)` (lines 70-74), as a function of the two
column positions. -/
noncomputable def corrMatrix (t : Frame) : Fin 3 → Fin 3 → ℝ :=
  fun i j => round2 (pearson (corrCol t i) (corrCol t j))

/-! ## Stage 4: seasonal decomposition -/

/-- Lines 79-87: attempted only when the weekly table has more than 12 rows;
additive model, fixed period 4, applied to the weekly mean series. `none`
models the key being absent from the result dict. -/
noncomputable def seasonalityStage (ext : ExternalStats) (t : Frame) :
    Option SeasonalityData :=
  if 12 < (weeklyTrends t).length then
    some (ext.seasonal_decompose "additive" 4
      ((weeklyTrends t).map fun r => (r.WEEK, r.Mean_Wound_Area)))
  else none

/-! ## Stage 5: treatment efficacy -/

structure EfficacyRow where
  NAME : String
  Total_Healed_Area : ℚ
  Average_Treatment_Duration : ℕ
  Healing_Rate : ℚ
deriving DecidableEq

/-- Lines 93-98: per-product totals; the duration divisor has `0` replaced by
`1` (`.replace(0, 1)`). -/
def efficacyStage (t : Frame) : List EfficacyRow :=
  (sortStrsLex (uniqueFirst (t.rows.map Row.NAME))).map fun n =>
    let total := ((nameRows t n).map Row.TOTAL_WOUND_AREA).sum
    let dur := (nameRows t n).length
    { NAME := n
      Total_Healed_Area := total
      Average_Treatment_Duration := dur
      Healing_Rate := total / (if dur = 0 then 1 else (dur : ℚ)) }

/-! ## Stage 6: week-over-week t-tests -/

/-- One record of `analysis['ttest_results']['week_over_week']`
(lines 118-131). -/
structure TTestRecord where
  week1 : String
  week2 : String
  t_statistic : Option ℚ
  p_value : Option ℚ
  note : Option String
deriving DecidableEq

/-- Consecutive pairs `(l[i], l[i+1])`. -/
def consecPairs : List α → List (α × α)
  | a :: b :: rest => (a, b) :: consecPairs (b :: rest)
  | _ => []

def skipNote : String := "Skipped due to insufficient variance or sample size"

/-- The guard on lines 114-116. `1e-10` is the rational `1/10^10`. -/
def ttestGuard (s1 s2 : List ℚ) : Prop :=
  1 < s1.length ∧ 1 < s2.length ∧ s1 ≠ [] ∧ s2 ≠ [] ∧
    1 / 10 ^ 10 < sampleVar s1 ∧ 1 / 10 ^ 10 < sampleVar s2

instance : ∀ s1 s2, Decidable (ttestGuard s1 s2) := fun s1 s2 => by
  unfold ttestGuard; infer_instance

/-- The body of the loop on lines 111-131 for one week pair. -/
def ttestOne (ext : ExternalStats) (t : Frame) (p : String × String) : TTestRecord :=
  let s1 := weekAreas t p.1
  let s2 := weekAreas t p.2
  if ttestGuard s1 s2 then
    { week1 := p.1, week2 := p.2
      t_statistic := some (ext.ttest_ind s1 s2 false).1
      p_value := some (ext.ttest_ind s1 s2 false).2
      note := none }
  else
    { week1 := p.1, week2 := p.2
      t_statistic := none, p_value := none, note := some skipNote }

/-- Lines 108-132: one record per consecutive pair of the lexicographically
sorted unique week labels. -/
def ttestStage (ext : ExternalStats) (t : Frame) : List TTestRecord :=
  (consecPairs (weeksLexOf t)).map (ttestOne ext t)

/-! ## The analyzer (`analyze_trends`, src/modules/analysis.py lines 10-136) -/

/-- The result dict. `none` in an `Option` field models the key being absent.
The two chart fields carry the data their plotly figures render. -/
structure AnalysisResult where
  error : Option String := none
  weekly_trends_data : Option (List WeeklyRow) := none
  weekly_trends : Option (List WeeklyRow) := none
  product_performance : Option (List (String × ℚ)) := none
  correlation_matrix : Option (Fin 3 → Fin 3 → ℝ) := none
  seasonality : Option SeasonalityData := none
  treatment_efficacy : Option (List EfficacyRow) := none
  ttest_results : Option (List TTestRecord) := none

def emptyOrMissingMsg : String :=
  "Input DataFrame is empty or missing required columns: WEEK, TOTAL_WOUND_AREA, NAME, WOUND_COUNT, AVG_WOUND_AREA"

def weekErrMsg (w : String) : String :=
  "Failed to process WEEK column: invalid literal for int() with base 10: " ++
    (lastToken? w).getD ""

/-- The first unique week label (in first-occurrence order, the order in which
`sorted`'s key function is applied) on which `int(x.split()[-1])` raises. -/
def firstBadWeek (t : Frame) : Option String :=
  (uniqueFirst (t.rows.map Row.WEEK)).find? fun w => !wellFormedWeek w

/-- `analyze_trends`. The outer `Option` models raising: `none` is an
exception escaping the function, which happens exactly when the week-ordering
key raises `IndexError` (`[-1]` on an all-whitespace label) — the source only
catches `ValueError`/`TypeError` there. Every other path returns a dict:
either tagged with `error` (empty/missing-column input, line 17, or a
non-integer week suffix, line 26) or with every sub-computation's field
populated. The guarded stage bodies (lines 30-134) are total on tables of
rationals, so the per-stage `except` branches are unreachable in the model. -/
noncomputable def analyze_trends (ext : ExternalStats) (t : Frame) :
    Option AnalysisResult :=
  if t.rows.isEmpty || !(requiredCols.all (t.cols.contains ·)) then
    some { error := some emptyOrMissingMsg }
  else
    match firstBadWeek t with
    | some w => if pySplitWs w = [] then none else some { error := some (weekErrMsg w) }
    | none =>
      some { error := none
             weekly_trends_data := some (weeklyTrends t)
             weekly_trends := some (weeklyTrends t)
             product_performance := some (productChart t)
             correlation_matrix := some (corrMatrix t)
             seasonality := seasonalityStage ext t
             treatment_efficacy := some (efficacyStage t)
             ttest_results := some (ttestStage ext t) }

/-! ## Summary truncation (src/modules/tasks.py lines 32-35) -/

/-- `summary[:250] + "..." if len(summary) > 250 else summary`:
the summary text handed to the hypothesis prompt. -/
def truncatedSummary (summary : String) : String :=
  if 250 < pyLen summary then pySlice summary 250 ++ "..." else summary

/-! ## Validation extractor (`parse_validation_output`, src/app.py 52-80) -/

/-- `re.split(r'\n\s*\n', text)` for text already stripped of surrounding
whitespace: maximal runs of non-blank lines, rejoined with `'\n'`. On stripped
text the regex match (a newline, optional whitespace, a greedy final newline)
consumes exactly the newlines surrounding a run of all-whitespace lines, so
the blocks are the groups of consecutive non-blank lines. On the empty string
`re.split` returns `[""]`. -/
def blockGroupsAux : List String → List String → List (List String)
  | [], cur => if cur = [] then [] else [cur.reverse]
  | l :: ls, cur =>
    if isBlankStr l then
      if cur = [] then blockGroupsAux ls []
      else cur.reverse :: blockGroupsAux ls []
    else blockGroupsAux ls (l :: cur)

def blocksOf (text : String) : List String :=
  let gs := (blockGroupsAux (pySplitChar '\n' (pyStrip text)) []).map pyJoinNl
  if gs = [] then [""] else gs

/-- `lines = block.strip().split('\n')` (line 63). -/
def blockLines (block : String) : List String :=
  pySplitChar '\n' (pyStrip block)

/-- The well-formedness test the loop body applies to one block:
at least two lines, the first starting with `- Status:`, the second with
`- Evidence:` (lines 64-67). -/
def goodBlock (block : String) : Prop :=
  2 ≤ (blockLines block).length ∧
    pyStartsWith (pyStrip ((blockLines block).getD 0 "")) "- Status:" = true ∧
    pyStartsWith (pyStrip ((blockLines block).getD 1 "")) "- Evidence:" = true

instance : ∀ b, Decidable (goodBlock b) := fun b => by
  unfold goodBlock; infer_instance

/-- `line.split(':')[1].strip()`: the text strictly between the first colon
and the second colon (or the end of the line when there is no second colon),
trimmed. -/
def betweenColons (line : String) : String :=
  pyStrip ((pySplitChar ':' line).getD 1 "")

/-- The `(status, evidence)` pair the loop extracts from a good block
(lines 68-70). -/
def blockPair (block : String) : String × String :=
  (betweenColons (pyStrip ((blockLines block).getD 0 "")),
   betweenColons (pyStrip ((blockLines block).getD 1 "")))

/-- The substring after the *first* colon, trimmed — the extraction the
specification describes. Differs from `betweenColons` exactly when a second
colon is present. -/
def afterFirstColon (line : String) : String :=
  pyStrip (⟨List.intercalate [':'] (((pySplitChar ':' line).drop 1).map String.data)⟩)

/-- The loop body for one block: a pair, or the `ValueError` message. -/
def processBlock (block : String) : Except String (String × String) :=
  if 2 ≤ (blockLines block).length then
    if pyStartsWith (pyStrip ((blockLines block).getD 0 "")) "- Status:" &&
       pyStartsWith (pyStrip ((blockLines block).getD 1 "")) "- Evidence:" then
      .ok (blockPair block)
    else .error ("Invalid format in validation block: " ++ block)
  else .error ("Insufficient lines in validation block: " ++ block)

/-- `parse_validation_output` on a plain-text response. `.error` carries the
message of the `ValueError` re-raised on line 80. -/
def parse_validation_output (output : String) : Except String (List (String × String)) :=
  let inner : Except String (List (String × String)) :=
    match (blocksOf output).mapM processBlock with
    | .error e => .error e
    | .ok vs =>
      if vs = [] then .error ("No valid validations found. Raw output: " ++ output)
      else .ok vs
  inner.mapError ("Error parsing validation results: " ++ ·)

/-! ## Hypothesis extractor (`parse_hypothesis_output`, src/app.py 26-50) -/

/-- `re.sub(r'```(?:python)?\s*|\s*```', '', text)` (line 36): delete every
code-fence marker, an optional `python` tag and trailing whitespace after an
opening fence, and the whitespace run preceding a closing fence. Scanning is
left to right; at a position the first alternative (a literal fence) is tried
before the second (whitespace followed by a fence). Fuel-based recursion; the
initial fuel `length + 1` is ample since every step consumes at least one
character. -/
def fenceGo : ℕ → List Char → List Char
  | 0, cs => cs
  | fuel + 1, cs =>
    match cs with
    | [] => []
    | c :: rest =>
      if cs.take 3 = ['`', '`', '`'] then
        let r1 := cs.drop 3
        let r2 := if r1.take 6 = "python".data then r1.drop 6 else r1
        fenceGo fuel (r2.dropWhile isPySpace)
      else if isPySpace c then
        let rest2 := cs.dropWhile isPySpace
        if rest2.take 3 = ['`', '`', '`'] then fenceGo fuel (rest2.drop 3)
        else c :: fenceGo fuel rest
      else c :: fenceGo fuel rest

def stripFences (s : String) : String :=
  ⟨fenceGo (s.data.length + 1) s.data⟩

def isWordChar (c : Char) : Bool := c.isAlpha || c.isDigit || c = '_'

def isUpperAZ (c : Char) : Bool := 'A' ≤ c && c ≤ 'Z'

def isLowerAZ (c : Char) : Bool := 'a' ≤ c && c ≤ 'z'

/-- The split point of `re.split(r'(?<!\w\.\w.)(?<![A-Z][a-z]\.)(?<=\.|\?)\s', text)`
(line 39): a whitespace character whose reversed prefix (`prev`, most recent
character first) ends with `.` or `?`, not preceded by the abbreviation
patterns excluded by the two negative lookbehinds. -/
def sentBoundary (prev : List Char) : Bool :=
  match prev with
  | [] => false
  | p1 :: rest =>
    (p1 = '.' || p1 = '?') &&
    !(match rest with
      | p2 :: p3 :: p4 :: _ => isWordChar p4 && p3 = '.' && isWordChar p2
      | _ => false) &&
    !(match rest with
      | p2 :: p3 :: _ => isUpperAZ p3 && isLowerAZ p2 && p1 = '.'
      | _ => false)

/-- The splitter: each matched whitespace character is consumed as a
delimiter; the lookbehinds inspect the original text. -/
def sentSplitGo : List Char → List Char → List Char → List String
  | [], _, cur => [⟨cur.reverse⟩]
  | c :: cs, prev, cur =>
    if isPySpace c && sentBoundary prev then
      (⟨cur.reverse⟩ : String) :: sentSplitGo cs (c :: prev) []
    else sentSplitGo cs (c :: prev) (c :: cur)

def pySentSplit (s : String) : List String := sentSplitGo s.data [] []

/-- Lines 39-41: split into candidate sentences, then keep the stripped
candidates that are non-empty, longer than 5 characters and do not begin with
`Agent stopped`. -/
def hypothesisCandidates (output : String) : List String :=
  ((pySentSplit (pyStrip (stripFences (pyStrip output)))).map pyStrip).filter
    fun s => s ≠ "" && 5 < pyLen s && !pyStartsWith s "Agent stopped"

/-- `parse_hypothesis_output` on a plain-text response, up to the point where
the surviving sentences are wrapped into `Hypothesis` records (the pydantic
constructor itself is external to this model). `.error` carries the message of
the `ValueError` re-raised on line 50. -/
def parse_hypothesis_output (output : String) : Except String (List String) :=
  if hypothesisCandidates output = [] then
    .error ("Error parsing hypotheses: No valid hypotheses found. Raw output: " ++ output)
  else .ok (hypothesisCandidates output)

/-! ## Concrete example tables -/

/-- A row carrying the given week, product and total wound area. -/
def mkRow (w n : String) (a : ℚ) : Row :=
  { WEEK := w, NAME := n, TOTAL_WOUND_AREA := a, WOUND_COUNT := 1, AVG_WOUND_AREA := a }

/-- Week labels `Week 2`, `Week 10`, `Week 1`: numeric and lexicographic
orderings disagree. -/
def frameWeeks2101 : Frame :=
  { cols := stdCols
    rows := [mkRow "Week 2" "P" 3, mkRow "Week 10" "P" 5, mkRow "Week 1" "P" 7] }

/-- Two products `A` (first encountered) and `B` with equal positive means. -/
def frameTie : Frame :=
  { cols := stdCols
    rows := [mkRow "Week 1" "A" 5, mkRow "Week 1" "B" 5] }

/-- Two weeks; the first week's sample `[0, 1e-5, 2e-5]` has sample variance
exactly `1e-10`. -/
def frameVarEps : Frame :=
  { cols := stdCols
    rows := [mkRow "Week 1" "P" 0, mkRow "Week 1" "P" (1 / 100000),
             mkRow "Week 1" "P" (2 / 100000),
             mkRow "Week 2" "P" 0, mkRow "Week 2" "P" 1, mkRow "Week 2" "P" 2] }

/-- 15 products with pairwise distinct positive means. -/
def frame15 : Frame :=
  { cols := stdCols
    rows := [mkRow "Week 1" "P01" 1, mkRow "Week 1" "P02" 2, mkRow "Week 1" "P03" 3,
             mkRow "Week 1" "P04" 4, mkRow "Week 1" "P05" 5, mkRow "Week 1" "P06" 6,
             mkRow "Week 1" "P07" 7, mkRow "Week 1" "P08" 8, mkRow "Week 1" "P09" 9,
             mkRow "Week 1" "P10" 10, mkRow "Week 1" "P11" 11, mkRow "Week 1" "P12" 12,
             mkRow "Week 1" "P13" 13, mkRow "Week 1" "P14" 14, mkRow "Week 1" "P15" 15] }

/-- A small non-degenerate numeric table (all three columns non-constant). -/
def frameCorr : Frame :=
  { cols := stdCols
    rows := [{ WEEK := "Week 1", NAME := "P", TOTAL_WOUND_AREA := 1,
               WOUND_COUNT := 2, AVG_WOUND_AREA := 3 },
             { WEEK := "Week 1", NAME := "P", TOTAL_WOUND_AREA := 2,
               WOUND_COUNT := 5, AVG_WOUND_AREA := 4 },
             { WEEK := "Week 2", NAME := "P", TOTAL_WOUND_AREA := 4,
               WOUND_COUNT := 3, AVG_WOUND_AREA := 9 }] }

/-- The empty table. -/
def frameEmpty : Frame := { cols := stdCols, rows := [] }

/-! ## Concrete evaluations

`Rat` arithmetic is irreducible to the kernel, so concrete values that
involve means or variances are computed once here by `simp`/`norm_num` and
reused below. -/

theorem sortNames_frameTie :
    sortStrsLex (uniqueFirst (frameTie.rows.map Row.NAME)) = ["A", "B"] := by
  decide

theorem nameRows_frameTie_A : nameRows frameTie "A" = [mkRow "Week 1" "A" 5] := by
  decide

theorem nameRows_frameTie_B : nameRows frameTie "B" = [mkRow "Week 1" "B" 5] := by
  decide

theorem productStats_frameTie : productStats frameTie =
    [{ NAME := "A", Mean_Wound_Area := 5, Usage_Count := 1 },
     { NAME := "B", Mean_Wound_Area := 5, Usage_Count := 1 }] := by
  unfold productStats
  rw [sortNames_frameTie]
  simp [nameRows_frameTie_A, nameRows_frameTie_B, mkRow, qmean]

/-- Both products tie at mean `5`; the ranking emerges in reverse
name order, not encounter order. -/
theorem ranking_frameTie : productRanking frameTie =
    [{ NAME := "B", Mean_Wound_Area := 5, Usage_Count := 1 },
     { NAME := "A", Mean_Wound_Area := 5, Usage_Count := 1 }] := by
  unfold productRanking
  rw [productStats_frameTie]
  norm_num [List.filter_cons, List.insertionSort, List.orderedInsert, meanLe]

theorem sortNames_frame15 :
    sortStrsLex (uniqueFirst (frame15.rows.map Row.NAME)) =
      ["P01","P02","P03","P04","P05","P06","P07","P08","P09","P10",
       "P11","P12","P13","P14","P15"] := by decide

theorem productStats_frame15 : productStats frame15 =
    [{ NAME := "P01", Mean_Wound_Area := 1, Usage_Count := 1 },
     { NAME := "P02", Mean_Wound_Area := 2, Usage_Count := 1 },
     { NAME := "P03", Mean_Wound_Area := 3, Usage_Count := 1 },
     { NAME := "P04", Mean_Wound_Area := 4, Usage_Count := 1 },
     { NAME := "P05", Mean_Wound_Area := 5, Usage_Count := 1 },
     { NAME := "P06", Mean_Wound_Area := 6, Usage_Count := 1 },
     { NAME := "P07", Mean_Wound_Area := 7, Usage_Count := 1 },
     { NAME := "P08", Mean_Wound_Area := 8, Usage_Count := 1 },
     { NAME := "P09", Mean_Wound_Area := 9, Usage_Count := 1 },
     { NAME := "P10", Mean_Wound_Area := 10, Usage_Count := 1 },
     { NAME := "P11", Mean_Wound_Area := 11, Usage_Count := 1 },
     { NAME := "P12", Mean_Wound_Area := 12, Usage_Count := 1 },
     { NAME := "P13", Mean_Wound_Area := 13, Usage_Count := 1 },
     { NAME := "P14", Mean_Wound_Area := 14, Usage_Count := 1 },
     { NAME := "P15", Mean_Wound_Area := 15, Usage_Count := 1 }] := by
  unfold productStats
  rw [sortNames_frame15]
  have h01 : nameRows frame15 "P01" = [mkRow "Week 1" "P01" 1] := by decide
  have h02 : nameRows frame15 "P02" = [mkRow "Week 1" "P02" 2] := by decide
  have h03 : nameRows frame15 "P03" = [mkRow "Week 1" "P03" 3] := by decide
  have h04 : nameRows frame15 "P04" = [mkRow "Week 1" "P04" 4] := by decide
  have h05 : nameRows frame15 "P05" = [mkRow "Week 1" "P05" 5] := by decide
  have h06 : nameRows frame15 "P06" = [mkRow "Week 1" "P06" 6] := by decide
  have h07 : nameRows frame15 "P07" = [mkRow "Week 1" "P07" 7] := by decide
  have h08 : nameRows frame15 "P08" = [mkRow "Week 1" "P08" 8] := by decide
  have h09 : nameRows frame15 "P09" = [mkRow "Week 1" "P09" 9] := by decide
  have h10 : nameRows frame15 "P10" = [mkRow "Week 1" "P10" 10] := by decide
  have h11 : nameRows frame15 "P11" = [mkRow "Week 1" "P11" 11] := by decide
  have h12 : nameRows frame15 "P12" = [mkRow "Week 1" "P12" 12] := by decide
  have h13 : nameRows frame15 "P13" = [mkRow "Week 1" "P13" 13] := by decide
  have h14 : nameRows frame15 "P14" = [mkRow "Week 1" "P14" 14] := by decide
  have h15 : nameRows frame15 "P15" = [mkRow "Week 1" "P15" 15] := by decide
  simp [h01, h02, h03, h04, h05, h06, h07, h08, h09, h10, h11, h12, h13, h14,
    h15, mkRow, qmean]

/-- Of the 15 distinct means, exactly the top 10 survive, in descending
order. -/
theorem ranking_frame15 :
    (productRanking frame15).map (fun r => (r.NAME, r.Mean_Wound_Area)) =
      [("P15", 15), ("P14", 14), ("P13", 13), ("P12", 12), ("P11", 11),
       ("P10", 10), ("P09", 9), ("P08", 8), ("P07", 7), ("P06", 6)] := by
  unfold productRanking
  rw [productStats_frame15]
  norm_num [List.filter_cons, List.insertionSort, List.orderedInsert, meanLe]

theorem weeksLex_frameVarEps : weeksLexOf frameVarEps = ["Week 1", "Week 2"] := by decide
theorem weekAreas_frameVarEps_1 :
    weekAreas frameVarEps "Week 1" = [0, 1/100000, 2/100000] := rfl
theorem weekAreas_frameVarEps_2 :
    weekAreas frameVarEps "Week 2" = [0, 1, 2] := rfl
theorem var_frameVarEps_1 :
    sampleVar (weekAreas frameVarEps "Week 1") = 1 / 10 ^ 10 := by
  rw [weekAreas_frameVarEps_1]
  norm_num [sampleVar, qmean]
theorem var_frameVarEps_2 : sampleVar (weekAreas frameVarEps "Week 2") = 1 := by
  rw [weekAreas_frameVarEps_2]
  norm_num [sampleVar, qmean]
theorem ttest_frameVarEps (ext : ExternalStats) :
    ttestStage ext frameVarEps =
      [{ week1 := "Week 1", week2 := "Week 2", t_statistic := none,
         p_value := none, note := some skipNote }] := by
  unfold ttestStage
  rw [weeksLex_frameVarEps]
  have hpairs : consecPairs ["Week 1", "Week 2"] = [("Week 1", "Week 2")] := rfl
  rw [hpairs]
  simp only [List.map_cons, List.map_nil]
  unfold ttestOne
  rw [if_neg]
  intro hg
  have h := hg.2.2.2.2.1
  rw [var_frameVarEps_1] at h
  exact lt_irrefl _ h

/-! ## Helper lemmas -/

theorem data_append (a b : String) : (a ++ b).data = a.data ++ b.data := rfl

theorem mem_of_mem_uniqueFirstAux :
    ∀ {l seen : List String} {x : String}, x ∈ uniqueFirstAux l seen → x ∈ l := by
  intro l
  induction l with
  | nil => intro seen x h; simp [uniqueFirstAux] at h
  | cons a l ih =>
    intro seen x h
    unfold uniqueFirstAux at h
    by_cases ha : a ∈ seen
    · rw [if_pos ha] at h
      exact List.mem_cons_of_mem _ (ih h)
    · rw [if_neg ha] at h
      cases h with
      | head => exact List.mem_cons_self _ _
      | tail _ h => exact List.mem_cons_of_mem _ (ih h)

theorem mem_of_mem_uniqueFirst {l : List String} {x : String}
    (h : x ∈ uniqueFirst l) : x ∈ l :=
  mem_of_mem_uniqueFirstAux h

theorem length_uniqueFirstAux_le :
    ∀ (l seen : List String), (uniqueFirstAux l seen).length ≤ l.length := by
  intro l
  induction l with
  | nil => intro seen; simp [uniqueFirstAux]
  | cons a l ih =>
    intro seen
    unfold uniqueFirstAux
    by_cases ha : a ∈ seen
    · rw [if_pos ha]
      exact le_trans (ih seen) (Nat.le_succ _)
    · rw [if_neg ha]
      simpa using ih (a :: seen)

/-- The weekly-trend week labels are exactly the numerically sorted unique
labels. -/
theorem weeklyTrendWeeks_eq (t : Frame) : weeklyTrendWeeks t = weeksNumOf t := by
  unfold weeklyTrendWeeks weeklyTrends
  induction weeksNumOf t with
  | nil => rfl
  | cons w ws ih => simpa using ih

theorem length_weeklyTrends (t : Frame) :
    (weeklyTrends t).length = distinctWeekCount t := by
  simp [weeklyTrends, weeksNumOf, sortWeeksNum, List.length_insertionSort,
    distinctWeekCount]

/-- Each t-test record carries one consecutive pair of the lexicographically
sorted unique week labels. -/
theorem ttest_pairs (ext : ExternalStats) (t : Frame) :
    (ttestStage ext t).map (fun r => (r.week1, r.week2)) =
      consecPairs (weeksLexOf t) := by
  unfold ttestStage
  rw [List.map_map]
  have h : ((fun r : TTestRecord => (r.week1, r.week2)) ∘ ttestOne ext t) =
      fun p : String × String => (p.1, p.2) := by
    funext p
    unfold ttestOne
    dsimp only [Function.comp]
    split <;> rfl
  rw [h]
  simp

/-! ## Claims -/

/-- C7: the analysis summary handed to the downstream hypothesis request is
cut to its first 250 characters with an ellipsis marker appended exactly when
truncation occurred; summaries of 250 characters or fewer pass through
unchanged (src/modules/tasks.py line 35). -/
theorem summary_truncated_to_250 (s : String) :
    (pyLen s ≤ 250 → truncatedSummary s = s) ∧
    (250 < pyLen s →
      truncatedSummary s = pySlice s 250 ++ "..." ∧
      pyLen (pySlice s 250) = 250 ∧
      List.IsPrefix (pySlice s 250).data s.data ∧
      pyLen (truncatedSummary s) = 253) := by
  constructor
  · intro h
    unfold truncatedSummary
    rw [if_neg (by omega)]
  · intro h
    unfold truncatedSummary
    rw [if_pos h]
    refine ⟨rfl, ?_, ?_, ?_⟩
    · unfold pyLen pySlice at *
      simp only [List.length_take]
      omega
    · exact List.take_prefix 250 s.data
    · unfold pyLen pySlice at *
      rw [data_append]
      simp only [List.length_append, List.length_take, List.length_cons,
        List.length_nil]
      omega

theorem summary_truncated_to_250_witness :
    (pyLen "ok" ≤ 250 ∧ truncatedSummary "ok" = "ok") ∧
    (250 < pyLen ⟨List.replicate 260 'a'⟩ ∧
      truncatedSummary ⟨List.replicate 260 'a'⟩ =
        pySlice ⟨List.replicate 260 'a'⟩ 250 ++ "...") :=
  ⟨⟨by decide, (summary_truncated_to_250 "ok").1 (by decide)⟩,
   ⟨by decide, ((summary_truncated_to_250 ⟨List.replicate 260 'a'⟩).2 (by decide)).1⟩⟩

/-- C8: whenever no candidate sentence survives the hypothesis extractor's
filtering, extraction fails with a parsing error whose message carries the raw
input text (src/app.py lines 44-45, 50). -/
theorem hypothesis_zero_survivors_error (output : String)
    (h : hypothesisCandidates output = []) :
    parse_hypothesis_output output =
      .error ("Error parsing hypotheses: No valid hypotheses found. Raw output: "
        ++ output) := by
  unfold parse_hypothesis_output
  rw [if_pos h]

theorem hypothesis_zero_survivors_error_witness :
    hypothesisCandidates "" = [] ∧
    parse_hypothesis_output "" =
      .error ("Error parsing hypotheses: No valid hypotheses found. Raw output: "
        ++ "") :=
  ⟨by decide, hypothesis_zero_survivors_error "" (by decide)⟩

/-- C10: every entry of the product-performance ranking has strictly positive
mean total wound area, and a product whose mean is not strictly positive never
appears in it (the filter on line 54 of src/modules/analysis.py precedes the
sort and the `head(10)` truncation). -/
theorem ranking_only_positive_means (t : Frame) (r : ProductRow) :
    (r ∈ productRanking t → 0 < r.Mean_Wound_Area) ∧
    (r.Mean_Wound_Area ≤ 0 → r ∉ productRanking t) := by
  have key : r ∈ productRanking t → 0 < r.Mean_Wound_Area := by
    intro h
    unfold productRanking at h
    have h1 := List.mem_of_mem_take h
    rw [List.mem_reverse] at h1
    have h2 := (List.mem_insertionSort meanLe).mp h1
    have h3 := (List.mem_filter.mp h2).2
    exact of_decide_eq_true h3
  exact ⟨key, fun hle hmem => absurd (key hmem) (not_lt.mpr hle)⟩

theorem ranking_only_positive_means_witness :
    ({ NAME := "B", Mean_Wound_Area := 5, Usage_Count := 1 } : ProductRow) ∈
        productRanking frameTie ∧
      (0 : ℚ) <
        ({ NAME := "B", Mean_Wound_Area := 5, Usage_Count := 1 } : ProductRow).Mean_Wound_Area := by
  have hmem : ({ NAME := "B", Mean_Wound_Area := 5, Usage_Count := 1 } : ProductRow) ∈
      productRanking frameTie := by
    rw [ranking_frameTie]; exact List.mem_cons_self _ _
  exact ⟨hmem, (ranking_only_positive_means frameTie _).1 hmem⟩

/-- C4 counterexample: two products with equal positive means, `A` encountered
first — the ranking comes out `B, A`, not the encounter order `A, B` the claim
asserts. The source sorts the groupby keys by name (pandas `sort=True`) and
the descending `sort_values` reverses an ascending argsort, so ties emerge in
reverse name order regardless of row encounter order. -/
theorem ranking_tie_not_encounter_order :
    (productRanking frameTie).map ProductRow.NAME = ["B", "A"] ∧
    (productRanking frameTie).map ProductRow.NAME ≠ ["A", "B"] := by
  rw [ranking_frameTie]
  exact ⟨rfl, by decide⟩

/-- C4 (amended): the product ranking is descending by mean total wound area
and truncated to at most 10 entries; 15 products with distinct means retain
exactly the top 10 in descending order. Ties follow reverse name order (the
tied example evaluates to `B, A`), not row encounter order. -/
theorem ranking_descending_top10 :
    (∀ t : Frame,
      List.Pairwise meanGe (productRanking t) ∧ (productRanking t).length ≤ 10) ∧
    (productRanking frame15).map (fun r => (r.NAME, r.Mean_Wound_Area)) =
      [("P15", 15), ("P14", 14), ("P13", 13), ("P12", 12), ("P11", 11),
       ("P10", 10), ("P09", 9), ("P08", 8), ("P07", 7), ("P06", 6)] ∧
    (productRanking frameTie).map ProductRow.NAME = ["B", "A"] := by
  refine ⟨fun t => ⟨?_, ?_⟩, ranking_frame15, by rw [ranking_frameTie]; rfl⟩
  · unfold productRanking
    have hs : List.Sorted meanLe
        (List.insertionSort meanLe
          ((productStats t).filter fun r => 0 < r.Mean_Wound_Area)) :=
      List.sorted_insertionSort meanLe _
    have hrev : List.Pairwise meanGe
        ((List.insertionSort meanLe
          ((productStats t).filter fun r => 0 < r.Mean_Wound_Area)).reverse) := by
      rw [List.pairwise_reverse]
      exact hs
    exact hrev.sublist (List.take_sublist _ _)
  · unfold productRanking
    rw [List.length_take]
    exact min_le_left _ _

/-- C2 counterexample: with labels `Week 2`, `Week 10`, `Week 1` the t-test
pair sequence is built from `sorted(df['WEEK'].unique())` (line 110), which
compares the raw label strings lexicographically — `("Week 1", "Week 10"),
("Week 10", "Week 2")` — not the numeric order `("Week 1", "Week 2"),
("Week 2", "Week 10")` the claim asserts for every derived week sequence. -/
theorem ttest_pairs_lexicographic_counterexample :
    (ttestStage extDefault frameWeeks2101).map (fun r => (r.week1, r.week2)) =
      [("Week 1", "Week 10"), ("Week 10", "Week 2")] ∧
    (ttestStage extDefault frameWeeks2101).map (fun r => (r.week1, r.week2)) ≠
      [("Week 1", "Week 2"), ("Week 2", "Week 10")] := by
  constructor <;> decide

/-- C2 (amended): the weekly-trend sequence is ordered by the integer suffix
of the week label (lines 22-24 build the ordered categorical), so
`["Week 2", "Week 10", "Week 1"]` derives as `Week 1, Week 2, Week 10`; but
the consecutive-pair sequence of the t-tests follows `sorted` over the raw
label strings (line 110), which is lexicographic — on the same labels it
derives as `Week 1, Week 10, Week 2`. The two orders agree only when
lexicographic and numeric label order coincide. -/
theorem week_sequence_orders :
    (∀ t : Frame,
      weeklyTrendWeeks t = sortWeeksNum (uniqueFirst (t.rows.map Row.WEEK)) ∧
      List.Pairwise weekNumLe (weeklyTrendWeeks t)) ∧
    (∀ (ext : ExternalStats) (t : Frame),
      (ttestStage ext t).map (fun r => (r.week1, r.week2)) =
        consecPairs (sortStrsLex (uniqueFirst (t.rows.map Row.WEEK))) ∧
      List.Pairwise strLe (weeksLexOf t)) ∧
    weeklyTrendWeeks frameWeeks2101 = ["Week 1", "Week 2", "Week 10"] ∧
    (ttestStage extDefault frameWeeks2101).map (fun r => (r.week1, r.week2)) =
      [("Week 1", "Week 10"), ("Week 10", "Week 2")] := by
  refine ⟨fun t => ⟨weeklyTrendWeeks_eq t, ?_⟩, fun ext t => ⟨ttest_pairs ext t, ?_⟩,
    by decide, by decide⟩
  · rw [weeklyTrendWeeks_eq]
    exact List.sorted_insertionSort weekNumLe _
  · exact List.sorted_insertionSort strLe _
/-- The skipped record produced for `frameVarEps`. -/
def skipRecVarEps : TTestRecord :=
  { week1 := "Week 1", week2 := "Week 2", t_statistic := none,
    p_value := none, note := some skipNote }

theorem ttestGuard_iff (s1 s2 : List ℚ) :
    ttestGuard s1 s2 ↔
      (2 ≤ s1.length ∧ 2 ≤ s2.length ∧
        1 / 10 ^ 10 < sampleVar s1 ∧ 1 / 10 ^ 10 < sampleVar s2) := by
  unfold ttestGuard
  constructor
  · rintro ⟨h1, h2, _, _, h5, h6⟩
    exact ⟨h1, h2, h5, h6⟩
  · rintro ⟨h1, h2, h5, h6⟩
    refine ⟨h1, h2, ?_, ?_, h5, h6⟩
    · exact List.ne_nil_of_length_pos (by omega)
    · exact List.ne_nil_of_length_pos (by omega)

theorem ttestOne_of_guard {t : Frame} {p : String × String} (ext : ExternalStats)
    (hg : ttestGuard (weekAreas t p.1) (weekAreas t p.2)) :
    ttestOne ext t p =
      { week1 := p.1, week2 := p.2
        t_statistic := some (ext.ttest_ind (weekAreas t p.1) (weekAreas t p.2) false).1
        p_value := some (ext.ttest_ind (weekAreas t p.1) (weekAreas t p.2) false).2
        note := none } := by
  unfold ttestOne
  rw [if_pos hg]

theorem ttestOne_of_skip {t : Frame} {p : String × String} (ext : ExternalStats)
    (hg : ¬ ttestGuard (weekAreas t p.1) (weekAreas t p.2)) :
    ttestOne ext t p =
      { week1 := p.1, week2 := p.2
        t_statistic := none, p_value := none, note := some skipNote } := by
  unfold ttestOne
  rw [if_neg hg]

/-- C5 (amended): the pairwise test runs exactly over the consecutive pairs of
the (lexicographically) sorted week sequence; a record carries null statistic,
null p-value and the skip annotation when either sample has fewer than 2
observations or sample variance at or below `1e-10` (the source computes only
when `var > 1e-10`, so the exact boundary value is skipped, not computed), and
otherwise both fields are populated with the values of the unequal-variance
(`equal_var=False`, Welch) two-sample t-test on total wound area. -/
theorem ttest_records_guarded (ext : ExternalStats) (t : Frame) :
    ((ttestStage ext t).map (fun r => (r.week1, r.week2)) =
      consecPairs (weeksLexOf t)) ∧
    ∀ r ∈ ttestStage ext t,
      (((weekAreas t r.week1).length < 2 ∨ (weekAreas t r.week2).length < 2 ∨
          sampleVar (weekAreas t r.week1) ≤ 1 / 10 ^ 10 ∨
          sampleVar (weekAreas t r.week2) ≤ 1 / 10 ^ 10) →
        r.t_statistic = none ∧ r.p_value = none ∧ r.note = some skipNote) ∧
      (2 ≤ (weekAreas t r.week1).length → 2 ≤ (weekAreas t r.week2).length →
        1 / 10 ^ 10 < sampleVar (weekAreas t r.week1) →
        1 / 10 ^ 10 < sampleVar (weekAreas t r.week2) →
        r.t_statistic =
          some (ext.ttest_ind (weekAreas t r.week1) (weekAreas t r.week2) false).1 ∧
        r.p_value =
          some (ext.ttest_ind (weekAreas t r.week1) (weekAreas t r.week2) false).2 ∧
        r.note = none) := by
  refine ⟨ttest_pairs ext t, ?_⟩
  intro r hr
  unfold ttestStage at hr
  obtain ⟨p, _, rfl⟩ := List.mem_map.mp hr
  by_cases hg : ttestGuard (weekAreas t p.1) (weekAreas t p.2)
  · rw [ttestOne_of_guard ext hg]
    dsimp only
    rw [ttestGuard_iff] at hg
    constructor
    · intro hskip
      exfalso
      rcases hskip with h | h | h | h
      · exact absurd hg.1 (by omega)
      · exact absurd hg.2.1 (by omega)
      · exact absurd hg.2.2.1 (not_lt.mpr h)
      · exact absurd hg.2.2.2 (not_lt.mpr h)
    · intro _ _ _ _
      exact ⟨rfl, rfl, rfl⟩
  · rw [ttestOne_of_skip ext hg]
    dsimp only
    constructor
    · intro _
      exact ⟨rfl, rfl, rfl⟩
    · intro h1 h2 h3 h4
      exact absurd (ttestGuard_iff _ _ |>.mpr ⟨h1, h2, h3, h4⟩) hg

theorem ttest_records_guarded_witness :
    skipRecVarEps ∈ ttestStage extDefault frameVarEps ∧
    sampleVar (weekAreas frameVarEps skipRecVarEps.week1) ≤ 1 / 10 ^ 10 ∧
    (skipRecVarEps.t_statistic = none ∧ skipRecVarEps.p_value = none ∧
      skipRecVarEps.note = some skipNote) := by
  have hmem : skipRecVarEps ∈ ttestStage extDefault frameVarEps := by
    rw [ttest_frameVarEps]
    exact List.mem_cons_self _ _
  have hle : sampleVar (weekAreas frameVarEps skipRecVarEps.week1) ≤ 1 / 10 ^ 10 :=
    le_of_eq var_frameVarEps_1
  exact ⟨hmem, hle,
    ((ttest_records_guarded extDefault frameVarEps).2 _ hmem).1
      (Or.inr (Or.inr (Or.inl hle)))⟩

/-- C5 counterexample: both weekly samples of `frameVarEps` have 3
observations and variances exactly `1e-10` and `1` — neither below `1e-10` —
yet the code's record carries null fields and the skip annotation where the
claim promises populated floats (`week1.var() > 1e-10` is false at the
boundary). -/
theorem ttest_boundary_variance_counterexample :
    2 ≤ (weekAreas frameVarEps "Week 1").length ∧
    2 ≤ (weekAreas frameVarEps "Week 2").length ∧
    ¬ (sampleVar (weekAreas frameVarEps "Week 1") < 1 / 10 ^ 10) ∧
    ¬ (sampleVar (weekAreas frameVarEps "Week 2") < 1 / 10 ^ 10) ∧
    ttestStage extDefault frameVarEps =
      [{ week1 := "Week 1", week2 := "Week 2", t_statistic := none,
         p_value := none, note := some skipNote }] := by
  refine ⟨by decide, by decide, ?_, ?_, ttest_frameVarEps extDefault⟩
  · rw [var_frameVarEps_1]
    exact lt_irrefl _
  · rw [var_frameVarEps_2]
    norm_num
/-- Under the analyzable-table hypotheses the analyzer returns the fully
populated result dict. -/
theorem analyze_full (ext : ExternalStats) (t : Frame)
    (hne : t.rows ≠ [])
    (hcols : requiredCols.all (t.cols.contains ·) = true)
    (hwf : (t.rows.all fun r => wellFormedWeek r.WEEK) = true) :
    analyze_trends ext t = some
      { error := none
        weekly_trends_data := some (weeklyTrends t)
        weekly_trends := some (weeklyTrends t)
        product_performance := some (productChart t)
        correlation_matrix := some (corrMatrix t)
        seasonality := seasonalityStage ext t
        treatment_efficacy := some (efficacyStage t)
        ttest_results := some (ttestStage ext t) } := by
  unfold analyze_trends
  have h1 : (t.rows.isEmpty || !(requiredCols.all (t.cols.contains ·))) = false := by
    rw [hcols]
    simp [List.isEmpty_iff, hne]
  rw [if_neg (by
    simp only [Bool.or_eq_true, not_or, Bool.not_eq_true', List.isEmpty_iff,
      Bool.not_eq_false]
    exact ⟨hne, hcols⟩)]
  have h2 : firstBadWeek t = none := by
    unfold firstBadWeek
    rw [List.find?_eq_none]
    intro w hw
    obtain ⟨r, hr, hrw⟩ := List.mem_map.mp (mem_of_mem_uniqueFirst hw)
    have := (List.all_eq_true.mp hwf) r hr
    simp only [← hrw, this, Bool.not_true, Bool.false_eq_true, not_false_eq_true]
  rw [h2]

/-- C6: for an analyzable table the seasonal-decomposition field is present in
the result iff the number of distinct weeks exceeds 12; when the threshold is
unmet the field is omitted entirely (no error tag), and when present it is the
additive decomposition with fixed period 4 of the weekly mean series
(src/modules/analysis.py lines 79-87). -/
theorem seasonality_iff_more_than_12_weeks (ext : ExternalStats) (t : Frame)
    (hne : t.rows ≠ [])
    (hcols : requiredCols.all (t.cols.contains ·) = true)
    (hwf : (t.rows.all fun r => wellFormedWeek r.WEEK) = true) :
    ∃ a, analyze_trends ext t = some a ∧
      a.seasonality = seasonalityStage ext t ∧
      (a.seasonality.isSome ↔ 12 < distinctWeekCount t) ∧
      (distinctWeekCount t ≤ 12 → a.seasonality = none) ∧
      (12 < distinctWeekCount t →
        a.seasonality = some (ext.seasonal_decompose "additive" 4
          ((weeklyTrends t).map fun r => (r.WEEK, r.Mean_Wound_Area)))) := by
  refine ⟨_, analyze_full ext t hne hcols hwf, rfl, ?_, ?_, ?_⟩
  · unfold seasonalityStage
    rw [length_weeklyTrends]
    by_cases h : 12 < distinctWeekCount t
    · rw [if_pos h]
      simp [h]
    · rw [if_neg h]
      simp [h]
  · intro h
    unfold seasonalityStage
    rw [length_weeklyTrends, if_neg (by omega)]
  · intro h
    unfold seasonalityStage
    rw [length_weeklyTrends, if_pos h]

theorem seasonality_iff_more_than_12_weeks_witness :
    (frameWeeks2101.rows ≠ [] ∧
      requiredCols.all (frameWeeks2101.cols.contains ·) = true ∧
      (frameWeeks2101.rows.all fun r => wellFormedWeek r.WEEK) = true ∧
      distinctWeekCount frameWeeks2101 ≤ 12) ∧
    ∃ a, analyze_trends extDefault frameWeeks2101 = some a ∧ a.seasonality = none := by
  refine ⟨⟨by decide, by decide, by decide, by decide⟩, ?_⟩
  obtain ⟨a, ha, -, -, habs, -⟩ :=
    seasonality_iff_more_than_12_weeks extDefault frameWeeks2101
      (by decide) (by decide) (by decide)
  exact ⟨a, ha, habs (by decide)⟩

/-- C1: `analyze_trends` is total on analyzable tables: an empty table or a
missing required column yields the tagged `error` result (no exception); for
a non-empty table with the required columns and well-formed week labels the
result carries no error tag and every sub-computation's field is populated
from its own independent stage (so no single stage can erase a sibling
field). The only uncaught exception path in the source — `IndexError` from
`x.split()[-1]` on an all-whitespace week label, which `except (ValueError,
TypeError)` does not catch — is excluded by the well-formedness hypothesis. -/
theorem analyze_total_and_isolated (ext : ExternalStats) (t : Frame) :
    ((t.rows = [] ∨ requiredCols.all (t.cols.contains ·) = false) →
      analyze_trends ext t = some { error := some emptyOrMissingMsg }) ∧
    ((t.rows.all fun r => wellFormedWeek r.WEEK) = true →
      ∃ a, analyze_trends ext t = some a) ∧
    (t.rows ≠ [] → requiredCols.all (t.cols.contains ·) = true →
      (t.rows.all fun r => wellFormedWeek r.WEEK) = true →
      analyze_trends ext t = some
        { error := none
          weekly_trends_data := some (weeklyTrends t)
          weekly_trends := some (weeklyTrends t)
          product_performance := some (productChart t)
          correlation_matrix := some (corrMatrix t)
          seasonality := seasonalityStage ext t
          treatment_efficacy := some (efficacyStage t)
          ttest_results := some (ttestStage ext t) }) := by
  have herr : (t.rows = [] ∨ requiredCols.all (t.cols.contains ·) = false) →
      analyze_trends ext t = some { error := some emptyOrMissingMsg } := by
    intro h
    unfold analyze_trends
    rw [if_pos]
    rcases h with h | h
    · simp [h, List.isEmpty_iff]
    · simp only [Bool.or_eq_true, List.isEmpty_iff, Bool.not_eq_true',
        decide_eq_true_eq]
      right
      exact h
  refine ⟨herr, ?_, fun hne hcols hwf => analyze_full ext t hne hcols hwf⟩
  intro hwf
  by_cases hne : t.rows = []
  · exact ⟨_, herr (Or.inl hne)⟩
  · by_cases hcols : requiredCols.all (t.cols.contains ·) = true
    · exact ⟨_, analyze_full ext t hne hcols hwf⟩
    · exact ⟨_, herr (Or.inr (Bool.eq_false_iff.mpr hcols))⟩

theorem analyze_total_and_isolated_witness :
    (frameEmpty.rows = [] ∧
      analyze_trends extDefault frameEmpty = some { error := some emptyOrMissingMsg }) ∧
    (frameWeeks2101.rows ≠ [] ∧
      requiredCols.all (frameWeeks2101.cols.contains ·) = true ∧
      (frameWeeks2101.rows.all fun r => wellFormedWeek r.WEEK) = true ∧
      analyze_trends extDefault frameWeeks2101 = some
        { error := none
          weekly_trends_data := some (weeklyTrends frameWeeks2101)
          weekly_trends := some (weeklyTrends frameWeeks2101)
          product_performance := some (productChart frameWeeks2101)
          correlation_matrix := some (corrMatrix frameWeeks2101)
          seasonality := seasonalityStage extDefault frameWeeks2101
          treatment_efficacy := some (efficacyStage frameWeeks2101)
          ttest_results := some (ttestStage extDefault frameWeeks2101) }) :=
  ⟨⟨rfl, (analyze_total_and_isolated extDefault frameEmpty).1 (Or.inl rfl)⟩,
   ⟨by decide, by decide, by decide,
    (analyze_total_and_isolated extDefault frameWeeks2101).2.2
      (by decide) (by decide) (by decide)⟩⟩
theorem blocksOf_ne_nil (s : String) : blocksOf s ≠ [] := by
  unfold blocksOf
  dsimp only
  split
  · simp
  · assumption

theorem processBlock_of_good {b : String} (h : goodBlock b) :
    processBlock b = .ok (blockPair b) := by
  unfold processBlock
  rw [if_pos h.1, if_pos (by rw [h.2.1, h.2.2]; rfl)]

theorem processBlock_of_bad {b : String} (h : ¬ goodBlock b) :
    ∃ pre, processBlock b = .error (pre ++ b) := by
  unfold processBlock
  by_cases hlen : 2 ≤ (blockLines b).length
  · rw [if_pos hlen]
    have hlab : (pyStartsWith (pyStrip ((blockLines b).getD 0 "")) "- Status:" &&
        pyStartsWith (pyStrip ((blockLines b).getD 1 "")) "- Evidence:") = false := by
      rcases hse : pyStartsWith (pyStrip ((blockLines b).getD 0 "")) "- Status:" with _ | _
      · rfl
      · rcases hev : pyStartsWith (pyStrip ((blockLines b).getD 1 "")) "- Evidence:" with _ | _
        · rfl
        · exact absurd ⟨hlen, hse, hev⟩ h
    rw [hlab]
    exact ⟨"Invalid format in validation block: ", rfl⟩
  · rw [if_neg hlen]
    exact ⟨"Insufficient lines in validation block: ", rfl⟩

theorem mapM_processBlock_ok :
    ∀ {bs : List String}, (∀ b ∈ bs, goodBlock b) →
      bs.mapM processBlock = .ok (bs.map blockPair) := by
  intro bs
  induction bs with
  | nil => intro _; rfl
  | cons b bs ih =>
    intro h
    rw [List.mapM_cons, processBlock_of_good (h b (List.mem_cons_self _ _)),
      ih (fun x hx => h x (List.mem_cons_of_mem _ hx))]
    rfl

theorem mapM_processBlock_err :
    ∀ {bs : List String} {bad : String},
      bs.find? (fun b => !decide (goodBlock b)) = some bad →
      ∃ pre, bs.mapM processBlock = .error (pre ++ bad) := by
  intro bs
  induction bs with
  | nil => intro bad h; simp [List.find?] at h
  | cons b bs ih =>
    intro bad h
    rw [List.find?_cons] at h
    by_cases hb : goodBlock b
    · have hfalse : (!decide (goodBlock b)) = false := by simp [hb]
      rw [hfalse] at h
      obtain ⟨pre, hpre⟩ := ih h
      rw [List.mapM_cons, processBlock_of_good hb, hpre]
      exact ⟨pre, rfl⟩
    · have htrue : (!decide (goodBlock b)) = true := by simp [hb]
      rw [htrue] at h
      cases h
      obtain ⟨pre, hpre⟩ := processBlock_of_bad hb
      rw [List.mapM_cons, hpre]
      exact ⟨pre, rfl⟩

/-- C3 (amended): the response splits on blank-line boundaries into blocks;
when every block has at least two lines labelled `- Status:` and
`- Evidence:`, one `(status, evidence)` record per block is produced, each
value being the text strictly between the first colon and the next colon (or
the end of the line), trimmed — not everything after the first colon; and any
malformed block fails the whole extraction with a parsing error whose message
names that (first malformed) block, producing no records at all. -/
theorem validation_blocks_all_or_nothing (output : String) :
    ((∀ b ∈ blocksOf output, goodBlock b) →
      parse_validation_output output = .ok ((blocksOf output).map blockPair)) ∧
    (∀ bad, (blocksOf output).find? (fun b => !decide (goodBlock b)) = some bad →
      ∃ pre, parse_validation_output output = .error (pre ++ bad)) := by
  constructor
  · intro h
    unfold parse_validation_output
    rw [mapM_processBlock_ok h]
    have hne : (blocksOf output).map blockPair ≠ [] := by
      intro he
      exact blocksOf_ne_nil output (List.map_eq_nil_iff.mp he)
    simp only [hne, if_neg hne]
    rfl
  · intro bad hbad
    obtain ⟨pre, hpre⟩ := mapM_processBlock_err hbad
    unfold parse_validation_output
    rw [hpre]
    exact ⟨"Error parsing validation results: " ++ pre, by
      show Except.error ("Error parsing validation results: " ++ (pre ++ bad)) = _
      rw [String.append_assoc]⟩

/-- C3 counterexample: the source extracts `line.split(':')[1]`, the text
between the first and second colons — not "the substring after the first
colon" as the claim states. With evidence text containing a colon
(`ratio 2:1`) the extracted evidence is `ratio 2`, while the substring after
the first colon, trimmed, is `ratio 2:1`. -/
theorem validation_colon_truncation_counterexample :
    parse_validation_output "- Status: supported\n- Evidence: ratio 2:1" =
      .ok [("supported", "ratio 2")] ∧
    afterFirstColon "- Evidence: ratio 2:1" = "ratio 2:1" ∧
    ("ratio 2" : String) ≠ "ratio 2:1" := by
  refine ⟨by rfl, by decide, by decide⟩

theorem validation_blocks_all_or_nothing_witness :
    (∀ b ∈ blocksOf
        "- Status: supported\n- Evidence: clear trend\n\n- Status: inconclusive\n- Evidence: limited data",
      goodBlock b) ∧
    parse_validation_output
        "- Status: supported\n- Evidence: clear trend\n\n- Status: inconclusive\n- Evidence: limited data" =
      .ok [("supported", "clear trend"), ("inconclusive", "limited data")] ∧
    (blocksOf "- Status: supported\nMissing evidence line").find?
        (fun b => !decide (goodBlock b)) =
      some "- Status: supported\nMissing evidence line" ∧
    ∃ pre, parse_validation_output "- Status: supported\nMissing evidence line" =
      .error (pre ++ "- Status: supported\nMissing evidence line") := by
  refine ⟨by decide, ?_, by decide, ?_⟩
  · rw [(validation_blocks_all_or_nothing _).1 (by decide)]
    rfl
  · exact (validation_blocks_all_or_nothing _).2 _ (by decide)
theorem zip_self_map (xs : List ℚ) : xs.zip xs = xs.map fun x => (x, x) := by
  induction xs with
  | nil => rfl
  | cons x xs ih => simp [List.zip_cons_cons, ih]

theorem crossMoment_self (xs : List ℚ) :
    crossMoment xs xs = (xs.map fun x => (x - qmean xs) ^ 2).sum := by
  unfold crossMoment
  rw [zip_self_map, List.map_map]
  congr 1
  refine List.map_congr_left fun x hx => ?_
  simp [Function.comp, sq]

theorem crossMoment_self_nonneg (xs : List ℚ) : 0 ≤ crossMoment xs xs := by
  rw [crossMoment_self]
  apply List.sum_nonneg
  intro x hx
  obtain ⟨y, -, rfl⟩ := List.mem_map.mp hx
  positivity

theorem crossMoment_comm (xs ys : List ℚ) :
    crossMoment xs ys = crossMoment ys xs := by
  unfold crossMoment
  rw [← List.zip_swap ys xs, List.map_map]
  congr 1
  refine List.map_congr_left fun p hp => ?_
  simp [Function.comp, mul_comm]

theorem pearson_comm (xs ys : List ℚ) : pearson xs ys = pearson ys xs := by
  unfold pearson
  rw [crossMoment_comm xs ys, mul_comm]

theorem pearson_self {xs : List ℚ} (h : crossMoment xs xs ≠ 0) :
    pearson xs xs = 1 := by
  unfold pearson
  rw [Real.mul_self_sqrt (by exact_mod_cast crossMoment_self_nonneg xs)]
  exact div_self (by exact_mod_cast h)

theorem round2_one : round2 1 = 1 := by
  unfold round2
  rw [one_mul, round_eq]
  norm_num

/-- C9: the correlation matrix over the three numeric columns, rounded to two
decimals, is symmetric and carries `1.0` on the diagonal whenever no column is
degenerate (zero centred sum of squares, i.e. constant). On a validated
numeric table the coercion `pd.to_numeric(...).fillna(0)` preceding the
computation is the identity, so the matrix is the rounded Pearson matrix of
the columns themselves. -/
theorem correlation_symmetric_unit_diagonal (t : Frame)
    (h : ∀ i, crossMoment (corrCol t i) (corrCol t i) ≠ 0) :
    (∀ i j, corrMatrix t i j = corrMatrix t j i) ∧
    (∀ i, corrMatrix t i i = 1) := by
  constructor
  · intro i j
    unfold corrMatrix
    rw [pearson_comm]
  · intro i
    unfold corrMatrix
    rw [pearson_self (h i), round2_one]

theorem correlation_symmetric_unit_diagonal_witness :
    (∀ i, crossMoment (corrCol frameCorr i) (corrCol frameCorr i) ≠ 0) ∧
    ((∀ i j, corrMatrix frameCorr i j = corrMatrix frameCorr j i) ∧
      (∀ i, corrMatrix frameCorr i i = 1)) := by
  have h : ∀ i, crossMoment (corrCol frameCorr i) (corrCol frameCorr i) ≠ 0 := by
    intro i
    fin_cases i <;>
      norm_num [crossMoment, corrCol, qmean, frameCorr, zip_self_map]
  exact ⟨h, correlation_symmetric_unit_diagonal frameCorr h⟩
